import Mathlib

/-!
Verification development for the orcfax explorer-index repository.

The TypeScript sources are shallowly embedded below:
* JavaScript numbers that only ever hold integral values (slots, epoch
  milliseconds, counters) are modelled as `Int`;
* JavaScript numbers that hold fractional oracle values are modelled as
  exact rationals `Rat` (the source computations on them stay inside the
  range where IEEE doubles and rationals agree for the claims at hand);
* fallible code paths (thrown exceptions that are caught and turned into
  `null`, schema-parse failures) are modelled with `Option`/`Except`;
* calls into the external record store are modelled as explicit effect
  lists, in the order the source issues them.
-/

/-- Floor division on integers, used to model `Math.floor(a / b)` in
JavaScript for integral `a` and `b`. -/
def jsFloorDiv (a b : Int) : Int := Int.fdiv a b

/-- Truthiness of a nullable JavaScript number: `null`, `0` and `NaN` are
falsy.  `none` models `null`. -/
def jsTruthyOptInt : Option Int → Bool
  | none => false
  | some v => v != 0

/-- Truthiness of a nullable JavaScript string: `null` and the empty string
are falsy. -/
def jsTruthyOptStr : Option String → Bool
  | none => false
  | some s => s != ""

/-- Model of the JavaScript idiom `x || d` for a nullable string `x` with a
string default `d`: the default is taken when `x` is `null` or empty. -/
def jsOrDefault (x : Option String) (d : String) : String :=
  match x with
  | none => d
  | some s => if s = "" then d else s

/-- Whether `sep` occurs as a contiguous run inside `l`. -/
def listHasInfix (sep : List Char) : List Char → Bool
  | [] => sep.isEmpty
  | c :: rest => sep.isPrefixOf (c :: rest) || listHasInfix sep rest

/-- Model of `String.prototype.includes`. -/
def jsIncludes (s sub : String) : Bool :=
  if sub = "" then true else listHasInfix sub.data s.data

/-- Splitting worker: `acc` is the current segment reversed and the first
argument is recursion fuel instantiated with the length of the list. -/
def jsSplitGo (sep : List Char) : Nat → List Char → List Char → List (List Char)
  | _, [], acc => [acc.reverse]
  | 0, l, acc => [acc.reverse ++ l]
  | k + 1, c :: rest, acc =>
    if sep.isPrefixOf (c :: rest) then
      acc.reverse :: jsSplitGo sep k (List.drop sep.length (c :: rest)) []
    else jsSplitGo sep k rest (c :: acc)

/-- Model of `String.prototype.split` with a nonempty separator string
(the only way the source uses it). -/
def jsSplit (s sep : String) : List String :=
  (jsSplitGo sep.data s.data.length s.data []).map String.mk

/-- Decimal fragment of `parseInt`: leading whitespace is skipped, then an
optional sign and a nonempty run of decimal digits; `none` models `NaN`.
The hexadecimal `0x` branch of `parseInt` is not modelled: the source only
applies `parseInt` to decimal slot headers. -/
def jsParseIntDec (s : String) : Option Int :=
  let t := s.data.dropWhile Char.isWhitespace
  let (neg, rest) :=
    match t with
    | '-' :: r => (true, r)
    | '+' :: r => (false, r)
    | r => (false, r)
  let digits := rest.takeWhile Char.isDigit
  if digits.isEmpty then none
  else
    let v : Int := digits.foldl (fun acc c => acc * 10 + (c.toNat - '0'.toNat)) 0
    some (if neg then -v else v)

/-- Stable insertion of `x` (an element occurring earlier in the input than
everything in the list) in front of the first `y` with `le x y`. -/
def jsSortInsert (le : α → α → Bool) (x : α) : List α → List α
  | [] => [x]
  | y :: ys => if le x y then x :: y :: ys else y :: jsSortInsert le x ys

/-- Model of `Array.prototype.sort` with a consistent comparator `cmp`:
a stable sort by the relation `le a b ↔ cmp(a, b) ≤ 0`.  ECMAScript
guarantees sort stability, so any stable sorting algorithm gives the same
result; a stable insertion sort is used here. -/
def jsStableSortBy (le : α → α → Bool) : List α → List α
  | [] => []
  | x :: xs => jsSortInsert le x (jsStableSortBy le xs)

/-! ## Time base (src/util/network.ts)

Only the network fields the indexing pipeline reads are carried;
`zero_time` and dates are epoch milliseconds. -/

/-- Embedding of a stored `Policy` record (fields used by kupo.ts). -/
structure PolicyT where
  id : String
  policy_id : String
  starting_slot : Int
deriving DecidableEq, Repr

/-- Embedding of a hydrated `Network` record (fields used by kupo.ts and
network.ts).  `policies` is the hydrated policy list in stored order. -/
structure NetworkT where
  id : String
  name : String
  zero_time : Int
  zero_slot : Int
  slot_length : Int
  last_block_hash : String
  last_checkpoint_slot : Int
  policies : List PolicyT
deriving DecidableEq, Repr

/-- Embedding of `slotToDate`: the returned `Date` is identified with its
epoch-millisecond value. -/
def slotToDate (slot : Int) (network : NetworkT) : Int :=
  network.zero_time + (slot - network.zero_slot) * network.slot_length

/-- Embedding of `dateToSlot`; `slotDate` is the epoch-millisecond value of
the input `Date`. -/
def dateToSlot (slotDate : Int) (network : NetworkT) : Int :=
  let unixTime := slotDate
  let timePassed := unixTime - network.zero_time
  let slotsPassed := jsFloorDiv timePassed network.slot_length
  slotsPassed + network.zero_slot

/-- The three time periods accepted by `slotAfterTimePeriod`. -/
inductive TimePeriod where
  | day
  | week
  | month
deriving DecidableEq, Repr

/-- Embedding of `slotAfterTimePeriod`. -/
def slotAfterTimePeriod (slot : Int) (timePeriod : TimePeriod) (network : NetworkT) : Int :=
  let milliseconds : Int :=
    match timePeriod with
    | .day => 24 * 60 * 60 * 1000
    | .week => 7 * 24 * 60 * 60 * 1000
    | .month => 30 * 24 * 60 * 60 * 1000
  let additionalSlots := jsFloorDiv milliseconds network.slot_length
  slot + additionalSlots

/-- A concrete network with the Preview seed time base, used by witnesses. -/
def previewNet : NetworkT :=
  { id := "net_preview"
    name := "Preview"
    zero_time := 1666656000000
    zero_slot := 0
    slot_length := 1000
    last_block_hash := "abcd"
    last_checkpoint_slot := 100
    policies := [{ id := "pol1", policy_id := "aaaa", starting_slot := 50 }] }

/-- C5: converting a slot at or after the zero slot to a date and back is
the identity, provided the slot length is positive. -/
theorem slot_date_roundtrip (s : Int) (network : NetworkT)
    (hs : network.zero_slot ≤ s) (hL : 0 < network.slot_length) :
    dateToSlot (slotToDate s network) network = s := by
  unfold dateToSlot slotToDate jsFloorDiv
  simp only
  rw [add_sub_cancel_left]
  rw [Int.mul_fdiv_cancel _ (by omega)]
  omega

/-- Witness for C5 at a concrete slot of the Preview network. -/
theorem slot_date_roundtrip_witness :
    previewNet.zero_slot ≤ 12345 ∧ 0 < previewNet.slot_length ∧
      dateToSlot (slotToDate 12345 previewNet) previewNet = 12345 :=
  ⟨by decide, by decide, slot_date_roundtrip 12345 previewNet (by decide) (by decide)⟩

/-! ## BLAKE2b-256 (RFC 7693)

Embedding of the `blake2b` npm library as called at kupo.ts line 395:
`blake2b(32)` (no key, 32-byte digest) updated with the UTF-8 bytes of a
string and finalized as a lowercase hex digest.  64-bit words are carried
as `Nat` reduced modulo `2 ^ 64`. -/

/-- The 64-bit word modulus. -/
def w64 : Nat := 18446744073709551616

/-- Right rotation of a 64-bit word. -/
def rotr64 (x n : Nat) : Nat :=
  ((x >>> n) ||| (x <<< (64 - n))) % w64

/-- The BLAKE2b initialization vector. -/
def blakeIV : List Nat :=
  [0x6a09e667f3bcc908, 0xbb67ae8584caa73b, 0x3c6ef372fe94f82b, 0xa54ff53a5f1d36f1,
   0x510e527fade682d1, 0x9b05688c2b3e6c1f, 0x1f83d9abfb41bd6b, 0x5be0cd19137e2179]

/-- The BLAKE2 message schedule permutations. -/
def blakeSigma : List (List Nat) :=
  [[0, 1, 2, 3, 4, 5, 6, 7, 8, 9, 10, 11, 12, 13, 14, 15],
   [14, 10, 4, 8, 9, 15, 13, 6, 1, 12, 0, 2, 11, 7, 5, 3],
   [11, 8, 12, 0, 5, 2, 15, 13, 10, 14, 3, 6, 7, 1, 9, 4],
   [7, 9, 3, 1, 13, 12, 11, 14, 2, 6, 5, 10, 4, 0, 15, 8],
   [9, 0, 5, 7, 2, 4, 10, 15, 14, 1, 11, 12, 6, 8, 3, 13],
   [2, 12, 6, 10, 0, 11, 8, 3, 4, 13, 7, 5, 15, 14, 1, 9],
   [12, 5, 1, 15, 14, 13, 4, 10, 0, 7, 6, 3, 9, 2, 8, 11],
   [13, 11, 7, 14, 12, 1, 3, 9, 5, 0, 15, 4, 8, 6, 2, 10],
   [6, 15, 14, 9, 11, 3, 0, 8, 12, 2, 13, 7, 1, 4, 10, 5],
   [10, 2, 8, 4, 7, 6, 1, 5, 15, 11, 9, 14, 3, 12, 13, 0]]

/-- The BLAKE2b mixing function G acting on working-vector positions
`a b c d` with message words `x` and `y`. -/
def blakeG (v : List Nat) (a b c d : Nat) (x y : Nat) : List Nat :=
  let va := (v.getD a 0 + v.getD b 0 + x) % w64
  let vd := rotr64 (Nat.xor (v.getD d 0) va) 32
  let vc := (v.getD c 0 + vd) % w64
  let vb := rotr64 (Nat.xor (v.getD b 0) vc) 24
  let va := (va + vb + y) % w64
  let vd := rotr64 (Nat.xor vd va) 16
  let vc := (vc + vd) % w64
  let vb := rotr64 (Nat.xor vb vc) 63
  ((((v.set a va).set b vb).set c vc).set d vd)

/-- One BLAKE2b round over the working vector `v` with message words `m`
and schedule row `s`. -/
def blakeRound (m : List Nat) (v : List Nat) (s : List Nat) : List Nat :=
  let v := blakeG v 0 4 8 12 (m.getD (s.getD 0 0) 0) (m.getD (s.getD 1 0) 0)
  let v := blakeG v 1 5 9 13 (m.getD (s.getD 2 0) 0) (m.getD (s.getD 3 0) 0)
  let v := blakeG v 2 6 10 14 (m.getD (s.getD 4 0) 0) (m.getD (s.getD 5 0) 0)
  let v := blakeG v 3 7 11 15 (m.getD (s.getD 6 0) 0) (m.getD (s.getD 7 0) 0)
  let v := blakeG v 0 5 10 15 (m.getD (s.getD 8 0) 0) (m.getD (s.getD 9 0) 0)
  let v := blakeG v 1 6 11 12 (m.getD (s.getD 10 0) 0) (m.getD (s.getD 11 0) 0)
  let v := blakeG v 2 7 8 13 (m.getD (s.getD 12 0) 0) (m.getD (s.getD 13 0) 0)
  blakeG v 3 4 9 14 (m.getD (s.getD 14 0) 0) (m.getD (s.getD 15 0) 0)

/-- The BLAKE2b compression function F: state `h`, message words `m`,
byte counter `t`, finalization flag `last`. -/
def blakeCompress (h : List Nat) (m : List Nat) (t : Nat) (last : Bool) : List Nat :=
  let v := h ++ blakeIV
  let v := v.set 12 (Nat.xor (v.getD 12 0) (t % w64))
  let v := v.set 13 (Nat.xor (v.getD 13 0) ((t / w64) % w64))
  let v := if last then v.set 14 (Nat.xor (v.getD 14 0) (w64 - 1)) else v
  let v := (List.range 12).foldl (fun v i => blakeRound m v (blakeSigma.getD (i % 10) [])) v
  (List.range 8).map (fun i => Nat.xor (h.getD i 0) (Nat.xor (v.getD i 0) (v.getD (i + 8) 0)))

/-- Little-endian word from up to eight bytes. -/
def leWord (bytes : List Nat) : Nat :=
  bytes.foldr (fun b acc => b + 256 * acc) 0

/-- The sixteen little-endian 64-bit message words of a 128-byte block. -/
def blockWords (blk : List Nat) : List Nat :=
  (List.range 16).map (fun j => leWord ((blk.drop (8 * j)).take 8))

/-- Pad a final short block with zero bytes up to 128 bytes. -/
def pad128 (l : List Nat) : List Nat :=
  l ++ List.replicate (128 - l.length) 0

/-- Split a byte list into 128-byte blocks, zero-padding the last; the
first argument is recursion fuel instantiated with the list length. -/
def chunk128Go : Nat → List Nat → List (List Nat)
  | 0, l => [pad128 l]
  | Nat.succ k, l =>
    if l.length ≤ 128 then [pad128 l]
    else l.take 128 :: chunk128Go k (l.drop 128)

/-- Split a byte list into zero-padded 128-byte blocks (an empty message
yields a single zero block, as BLAKE2b requires). -/
def chunk128 (l : List Nat) : List (List Nat) := chunk128Go l.length l

/-- The eight 64-bit state words of the BLAKE2b digest of `msg` with
digest length `nn` bytes and no key. -/
def blake2bWords (msg : List Nat) (nn : Nat) : List Nat :=
  let h0 := blakeIV.set 0 (Nat.xor (blakeIV.getD 0 0) (0x01010000 + nn))
  let blocks := chunk128 msg
  let nblocks := blocks.length
  (blocks.enum.foldl
    (fun h p =>
      let last := p.1 = nblocks - 1
      let t := if last then msg.length else (p.1 + 1) * 128
      blakeCompress h (blockWords p.2) t last)
    h0)

/-- Little-endian byte serialization of one 64-bit word. -/
def wordLEBytes (w : Nat) : List Nat :=
  (List.range 8).map (fun j => (w >>> (8 * j)) % 256)

/-- The lowercase hex digits. -/
def hexChars : List Char := "0123456789abcdef".data

/-- Two lowercase hex digits of a byte. -/
def hexByte (b : Nat) : List Char :=
  [hexChars.getD (b / 16) '0', hexChars.getD (b % 16) '0']

/-- BLAKE2b-256 lowercase hex digest of a byte list. -/
def blake2b256Hex (msg : List Nat) : String :=
  let words := (blake2bWords msg 32).take 4
  String.mk ((words.map wordLEBytes).flatten.map hexByte).flatten

/-- UTF-8 encoding of a single code point. -/
def utf8Bytes (c : Nat) : List Nat :=
  if c < 0x80 then [c]
  else if c < 0x800 then [0xC0 + c / 0x40, 0x80 + c % 0x40]
  else if c < 0x10000 then [0xE0 + c / 0x1000, 0x80 + (c / 0x40) % 0x40, 0x80 + c % 0x40]
  else [0xF0 + c / 0x40000, 0x80 + (c / 0x1000) % 0x40, 0x80 + (c / 0x40) % 0x40, 0x80 + c % 0x40]

/-- UTF-8 bytes of a string, as produced by `Buffer.from(s)` in Node. -/
def strBytes (s : String) : List Nat :=
  (s.data.map (fun c => utf8Bytes c.toNat)).flatten

/-- BLAKE2b-256 lowercase hex digest of the UTF-8 bytes of a string. -/
def blake2bHexOfString (s : String) : String :=
  blake2b256Hex (strBytes s)

set_option maxRecDepth 10000 in
/-- Sanity vector: the BLAKE2b-256 digest of the empty message. -/
theorem blake2b256_empty_vector :
    blake2b256Hex [] = "0e5751c026e543b2e8ab2eb06099daa1d1e5df47778f7787faab45cdf12fe3a8" := by
  decide

set_option maxRecDepth 10000 in
/-- Sanity vector: the BLAKE2b-256 digest of the ASCII string abc. -/
theorem blake2b256_abc_vector :
    blake2bHexOfString "abc" = "bddd813c634239723171ef3fee98579b94964e3bb1cb3e427262c8c068d52319" := by
  decide

/-! ## Datum decoder (kupo.ts decodeDatum)

The CBOR byte level is not re-modelled: `DecodedDatum` is the value shape
that `cbor.decodeFirstSync(serializedDatum, tags)` hands to
`DatumSchema.parse`, namely the pair of the fact tuple
`[feed_id_bytes, validation_ts, [numerator, denominator]]` and the
signature group.  JavaScript numbers are modelled as exact rationals; the
source values stay in the range where the two agree on the claims below. -/

/-- Model of `Number.prototype.toFixed(digits)` followed by unary `+`:
rounding to `digits` decimal places, half away from zero. -/
def jsToFixed (digits : Nat) (q : Rat) : Rat :=
  if q < 0 then -(((⌊(-q) * 10 ^ digits + 1 / 2⌋ : Int) : Rat) / 10 ^ digits)
  else ((⌊q * 10 ^ digits + 1 / 2⌋ : Int) : Rat) / 10 ^ digits

/-- The formatted value of kupo.ts line 494: ten decimal places below
`1e-6`, six otherwise. -/
def jsFormatValue (value : Rat) : Rat :=
  if value < 1 / 1000000 then jsToFixed 10 value else jsToFixed 6 value

/-- The decoded CBOR datum shape accepted by `DatumSchema`:
`[[feed_id_bytes, validation_ts, [numerator, denominator]], sig_group]`.
`feedIdUtf8` is the UTF-8 text of the feed id byte string and `sig` the
hex strings of the signature group (unused by `decodeDatum`). -/
structure DecodedDatum where
  feedIdUtf8 : String
  validationTs : Int
  numerator : Int
  denominator : Int
  sig : List String
deriving DecidableEq, Repr

/-- JavaScript stringification of `decoded[0]`, the array
`[feed_id_buffer, validation_ts, [numerator, denominator]]`: elements
joined by commas, the buffer as UTF-8 text, the inner pair joined by a
comma as well. -/
def datumSentinelString (d : DecodedDatum) : String :=
  d.feedIdUtf8 ++ "," ++ toString d.validationTs ++ ","
    ++ toString d.numerator ++ "," ++ toString d.denominator

/-- Decision procedure for the `FeedIdSchema` regular expression
`[^/]+ "/" [^/]+ "-" [^/]+ "/" [^/]+` anchored on both sides: exactly
three slash-separated nonempty parts, the middle one containing an
interior dash. -/
def feedIdValid (s : String) : Bool :=
  match jsSplit s "/" with
  | [a, b, c] => a != "" && c != "" && ((b.data.drop 1).dropLast.contains '-')
  | _ => false

/-- Embedding of the `CurrencyPairDatum` result of `decodeDatum`.
`validation_date` is epoch milliseconds; `datum_hash` holds the raw
`decoded[0]` sentinel, identified with its later stringification. -/
structure CurrencyPairDatumT where
  feed_id : String
  feed_type : String
  feed_name : String
  feed_version : String
  base_ticker : String
  quote_ticker : String
  validation_date : Int
  value : Rat
  datum_hash : String
  inverse_value : Rat
deriving DecidableEq, Repr

/-- Embedding of `decodeDatum` (kupo.ts lines 464 to 510).  `none` models
the exception thrown when `FeedIdSchema.parse` rejects the feed id (the
`DatumSchema` shape itself is enforced by the `DecodedDatum` type). -/
def decodeDatum (dec : DecodedDatum) : Option CurrencyPairDatumT :=
  if feedIdValid dec.feedIdUtf8 then
    let feed_id := dec.feedIdUtf8
    let parts := jsSplit feed_id "/"
    let nameParts := jsSplit (parts.getD 1 "") "-"
    let value : Rat := (dec.numerator : Rat) / (dec.denominator : Rat)
    let formattedValue := jsFormatValue value
    some
      { feed_id := feed_id
        feed_type := parts.getD 0 ""
        feed_name := parts.getD 1 ""
        feed_version := parts.getD 2 ""
        base_ticker := nameParts.getD 0 ""
        quote_ticker := nameParts.getD 1 ""
        validation_date := dec.validationTs
        value := value
        datum_hash := datumSentinelString dec
        inverse_value := 1 / formattedValue }
  else none

/-- The S1 scenario input: feed id bytes `CER/ADA-USD/3`, validation
timestamp `1700000000000`, numerator `5`, denominator `20000000`. -/
def s1Datum : DecodedDatum :=
  { feedIdUtf8 := "CER/ADA-USD/3"
    validationTs := 1700000000000
    numerator := 5
    denominator := 20000000
    sig := ["e29a7b3c55ad8d6b8e32a7f1d0f5c2b9a1443a2d9e6f7c8b5a4d3e2f1a0b9c8d"] }

/-- The `CurrencyPairDatum` produced by `decodeDatum` on the S1 input. -/
def s1Cp : CurrencyPairDatumT :=
  { feed_id := "CER/ADA-USD/3"
    feed_type := "CER"
    feed_name := "ADA-USD"
    feed_version := "3"
    base_ticker := "ADA"
    quote_ticker := "USD"
    validation_date := 1700000000000
    value := ((5 : Int) : Rat) / ((20000000 : Int) : Rat)
    datum_hash := "CER/ADA-USD/3,1700000000000,5,20000000"
    inverse_value := 1 / jsFormatValue (((5 : Int) : Rat) / ((20000000 : Int) : Rat)) }

/-- C3: every decoded datum has `value = numerator / denominator`,
`inverse_value = 1 / formattedValue` with the formatted value rounded to
ten decimal digits below `1e-6` and six otherwise; on the S1 input the
results are `value = 2.5e-7`, `inverse_value = 4000000`,
`base_ticker = "ADA"`, `quote_ticker = "USD"`, `feed_version = "3"`. -/
theorem decodeDatum_value_rule :
    (∀ (dec : DecodedDatum) (cp : CurrencyPairDatumT), decodeDatum dec = some cp →
        cp.value = (dec.numerator : Rat) / (dec.denominator : Rat) ∧
        cp.inverse_value = 1 / jsFormatValue cp.value ∧
        jsFormatValue cp.value =
          (if cp.value < 1 / 1000000 then jsToFixed 10 cp.value else jsToFixed 6 cp.value)) ∧
    (decodeDatum s1Datum).map
        (fun cp => (cp.value, cp.inverse_value, cp.base_ticker, cp.quote_ticker, cp.feed_version))
      = some (2.5e-7, 4000000, "ADA", "USD", "3") := by
  constructor
  · intro dec cp h
    unfold decodeDatum at h
    by_cases hv : feedIdValid dec.feedIdUtf8
    · rw [if_pos hv, Option.some.injEq] at h
      subst h
      exact ⟨rfl, rfl, rfl⟩
    · rw [if_neg hv] at h
      exact absurd h (by simp)
  · have h1 : (decodeDatum s1Datum).map
        (fun cp => (cp.value, cp.inverse_value, cp.base_ticker, cp.quote_ticker, cp.feed_version))
        = some (((5 : Int) : Rat) / ((20000000 : Int) : Rat),
            1 / jsFormatValue (((5 : Int) : Rat) / ((20000000 : Int) : Rat)), "ADA", "USD", "3") := rfl
    rw [h1]
    norm_num [jsFormatValue, jsToFixed]

/-- Witness for C3: the general rule applied to the concrete S1 input. -/
theorem decodeDatum_value_rule_witness :
    decodeDatum s1Datum = some s1Cp ∧
      (s1Cp.value = (s1Datum.numerator : Rat) / (s1Datum.denominator : Rat) ∧
        s1Cp.inverse_value = 1 / jsFormatValue s1Cp.value ∧
        jsFormatValue s1Cp.value =
          (if s1Cp.value < 1 / 1000000 then jsToFixed 10 s1Cp.value else jsToFixed 6 s1Cp.value)) :=
  ⟨rfl, decodeDatum_value_rule.1 s1Datum s1Cp rfl⟩

/-! ## Matches, metadata and fact assembly (kupo.ts parseAndIndexMatches)

External I/O is abstracted into oracle functions: `datumSvc` models
`GET /datums` composed with the CBOR decode (`none` is any failure that
`fetchDatumFromKupo` turns into `null`), `metaSvc` models `GET /metadata`
already projected to `metadata[0].schema[1226].list` (`none` is a failed
fetch), and `feedResolver` models the find-or-create feed lookup of lines
371 to 390, returning the store id for a feed id. -/

/-- Embedding of a `KupoMatch` record.  `coins` is `value.coins`; the
`value.assets` map is carried for shape only and never read. -/
structure KupoMatchT where
  transaction_index : Int
  transaction_id : String
  output_index : Int
  address : String
  coins : Int
  assets : List (String × Int)
  datum_hash : Option String
  datum_type : String
  script_hash : Option String
  created_at_slot_no : Int
  created_at_header_hash : String
  spent_at : Option (Int × String)
deriving DecidableEq, Repr

/-- An element of the label-1226 metadata list: either a bare string
object (the ToS disclaimer shape) or a `DatumMetadata` record carrying
the id (fact URN) and src (storage URN) strings. -/
inductive MetaItem where
  | mstr (s : String)
  | mpair (id : String) (src : String)
deriving DecidableEq, Repr

/-- The two ToS disclaimer literals accepted by `OrcfaxToSSchema`. -/
def orcfaxToSLiterals : List String :=
  ["Use oracle data at your own risk: https://orcfax.io/tos/",
   "Use oracle data at your own risk: https://orcfax.io/tos"]

/-- Whether a metadata element passes `OrcfaxToSSchema.safeParse`. -/
def isOrcfaxToS : MetaItem → Bool
  | .mstr s => orcfaxToSLiterals.contains s
  | .mpair _ _ => false

/-- Embedding of kupo.ts lines 357 to 361: drop the head of the metadata
list when it is the ToS disclaimer. -/
def stripToS (l : List MetaItem) : List MetaItem :=
  match l with
  | x :: rest => if isOrcfaxToS x then rest else l
  | [] => []

/-- The `(fact_urn, storage_urn)` strings of `transactionMetadata[i]`;
`none` models the TypeError raised when the entry is missing or is not a
`DatumMetadata` record. -/
def metaEntryAt (l : List MetaItem) (i : Nat) : Option (String × String) :=
  match l.get? i with
  | some (.mpair id src) => some (id, src)
  | _ => none

/-- The Arweave failure sentinels of kupo.ts line 398. -/
def arweaveFailureMessages : List String :=
  ["arweave tx not created", "send to Arkly feature is not currently enabled"]

/-- Embedding of kupo.ts lines 405 to 407: a storage URN containing a
failure sentinel is stored as the empty string. -/
def normalizeStorageUrn (storage_urn : String) : String :=
  if arweaveFailureMessages.any (fun failureMessage => jsIncludes storage_urn failureMessage)
  then "" else storage_urn

/-- Embedding of the fact statement record pushed at kupo.ts lines 401 to
423 (`id` and the post-archive fields are absent there). -/
structure FactRec where
  network : String
  policy : String
  fact_urn : String
  storage_urn : String
  feed : String
  transaction_id : String
  block_hash : String
  slot : Int
  address : String
  value : Rat
  value_inverse : Rat
  validation_date : Int
  publication_date : Int
  publication_cost : Rat
  output_index : Int
  statement_hash : String
  storage_cost : Rat
  is_archive_indexed : Bool
  datum_hash : String
deriving DecidableEq, Repr

/-- The fact statement assembled for one match: `dhash` is the non-null
`match.datum_hash`, `datum` the decoded currency pair datum, `fact_urn`
and `storageUrnRaw` the strings of the metadata entry at the match index,
`latestPolicy` the last element of `network.policies`. -/
def mkFactStatement (net : NetworkT) (txId feedDbId : String) (latestPolicy : PolicyT)
    (m : KupoMatchT) (dhash : String) (datum : CurrencyPairDatumT)
    (fact_urn storageUrnRaw : String) : FactRec :=
  { network := net.id
    policy := latestPolicy.id
    fact_urn := fact_urn
    storage_urn := normalizeStorageUrn storageUrnRaw
    feed := feedDbId
    transaction_id := txId
    block_hash := m.created_at_header_hash
    slot := m.created_at_slot_no
    address := m.address
    value := datum.value
    value_inverse := datum.inverse_value
    validation_date := datum.validation_date
    publication_date := slotToDate m.created_at_slot_no net
    publication_cost := (m.coins : Rat) / 1000000
    output_index := m.output_index
    statement_hash := blake2bHexOfString (datum.datum_hash ++ fact_urn)
    storage_cost := 0
    is_archive_indexed := false
    datum_hash := dhash }

/-- The body of the `for (const [index, match] of matches.entries())` loop
for a single match at position `i`. -/
def processMatchStep (net : NetworkT) (datumSvc : String → Option DecodedDatum)
    (feedResolver : String → String) (txId : String) (tmeta : List MetaItem)
    (i : Nat) (m : KupoMatchT) : Except String FactRec :=
  match m.datum_hash with
  | none => .error "Expected datum hash but found none"
  | some dhash =>
    match (datumSvc dhash).bind decodeDatum with
    | none => .error "Expected datum hash but found none"
    | some datum =>
      let feedDbId := feedResolver datum.feed_id
      match net.policies.getLast? with
      | none => .error "TypeError: no policies on network"
      | some latestPolicy =>
        match metaEntryAt tmeta i with
        | none => .error "TypeError: metadata entry missing or not DatumMetadata"
        | some (fact_urn, storageUrnRaw) =>
          .ok (mkFactStatement net txId feedDbId latestPolicy m dhash datum fact_urn storageUrnRaw)

/-- The match loop from position `i` on: the first error aborts the
transaction, mirroring the thrown exceptions of the source. -/
def processMatchesFrom (net : NetworkT) (datumSvc : String → Option DecodedDatum)
    (feedResolver : String → String) (txId : String) (tmeta : List MetaItem) :
    Nat → List KupoMatchT → Except String (List FactRec)
  | _, [] => .ok []
  | i, m :: rest =>
    match processMatchStep net datumSvc feedResolver txId tmeta i m with
    | .error e => .error e
    | .ok f =>
      match processMatchesFrom net datumSvc feedResolver txId tmeta (i + 1) rest with
      | .error e => .error e
      | .ok fs => .ok (f :: fs)

/-- Processing of one grouped transaction (the body of the
`for (const [txId, matches] of matchesByTx)` loop up to the
`indexFactStatements` call): the homogeneous-slot check, the metadata
fetch, the ToS strip, then the per-match loop. -/
def processTx (net : NetworkT) (datumSvc : String → Option DecodedDatum)
    (feedResolver : String → String) (metaSvc : String → Int → Option (List MetaItem))
    (txId : String) (ms : List KupoMatchT) : Except String (List FactRec) :=
  match ms with
  | [] => .error "TypeError: empty match group"
  | m0 :: _ =>
    if ms.any (fun tx => tx.created_at_slot_no != m0.created_at_slot_no) then
      .error "Not all matches have the same created_at.slot_no"
    else
      match metaSvc txId m0.created_at_slot_no with
      | none => .error "Failed to fetch metadata"
      | some metadataList =>
        let transactionMetadata := stripToS metadataList
        processMatchesFrom net datumSvc feedResolver txId transactionMetadata 0 ms

/-- Insertion into the per-transaction-id map of `groupMatchesByTx`,
preserving first-occurrence key order and per-key arrival order. -/
def addToGroup : List (String × List KupoMatchT) → KupoMatchT → List (String × List KupoMatchT)
  | [], m => [(m.transaction_id, [m])]
  | (k, v) :: rest, m =>
    if k = m.transaction_id then (k, v ++ [m]) :: rest
    else (k, v) :: addToGroup rest m

/-- Embedding of `groupMatchesByTx`: group by transaction id (JavaScript
`Map` iteration follows insertion order), then sort each group by
`output_index` ascending. -/
def groupMatchesByTx (ms : List KupoMatchT) : List (String × List KupoMatchT) :=
  (ms.foldl addToGroup []).map
    (fun kv => (kv.1, jsStableSortBy (fun a b => a.output_index ≤ b.output_index) kv.2))

/-- Embedding of the insert ordering of `indexFactStatements` (db.ts line
22): the batch is sorted by `validation_date` descending before the
per-fact create calls are issued. -/
def indexFactStatementsOrder (facts : List FactRec) : List FactRec :=
  jsStableSortBy (fun a b => b.validation_date ≤ a.validation_date) facts

/-- Inserting with `jsSortInsert` yields a permutation of consing. -/
theorem jsSortInsert_perm (le : α → α → Bool) (x : α) (l : List α) :
    (jsSortInsert le x l).Perm (x :: l) := by
  induction l with
  | nil => simp [jsSortInsert]
  | cons y ys ih =>
    unfold jsSortInsert
    by_cases h : le x y
    · simp [h]
    · simp only [h]
      simp only [Bool.false_eq_true, if_false]
      exact (List.Perm.cons y ih).trans (List.Perm.swap x y ys)

/-- The stable sort is a permutation of its input. -/
theorem jsStableSortBy_perm (le : α → α → Bool) (l : List α) :
    (jsStableSortBy le l).Perm l := by
  induction l with
  | nil => simp [jsStableSortBy]
  | cons x xs ih =>
    unfold jsStableSortBy
    exact ((jsSortInsert_perm le x (jsStableSortBy le xs)).trans (List.Perm.cons x ih))

/-- Insertion preserves pairwise order for a total transitive relation. -/
theorem jsSortInsert_pairwise (le : α → α → Bool)
    (htot : ∀ a b, le a b || le b a)
    (htrans : ∀ a b c, le a b → le b c → le a c)
    (x : α) (l : List α) (hl : l.Pairwise (fun a b => le a b = true)) :
    (jsSortInsert le x l).Pairwise (fun a b => le a b = true) := by
  induction l with
  | nil => simp [jsSortInsert]
  | cons y ys ih =>
    unfold jsSortInsert
    rcases List.pairwise_cons.mp hl with ⟨hy, hys⟩
    by_cases h : le x y
    · simp only [h, if_true]
      refine List.pairwise_cons.mpr ⟨?_, hl⟩
      intro b hb
      rcases hb with _ | hb
      · exact h
      · exact htrans x y b h (hy b (by assumption))
    · simp only [h]
      simp only [Bool.false_eq_true, if_false]
      refine List.pairwise_cons.mpr ⟨?_, ih hys⟩
      intro b hb
      have hperm := jsSortInsert_perm le x ys
      have hb' : b ∈ x :: ys := hperm.mem_iff.mp hb
      rcases hb' with _ | hb'
      · cases Bool.or_eq_true_iff.mp (htot x y) with
        | inl hxy => exact absurd hxy h
        | inr hyx => assumption
      · exact hy b (by assumption)

/-- The stable sort is pairwise ordered for a total transitive relation. -/
theorem jsStableSortBy_pairwise (le : α → α → Bool)
    (htot : ∀ a b, le a b || le b a)
    (htrans : ∀ a b c, le a b → le b c → le a c)
    (l : List α) :
    (jsStableSortBy le l).Pairwise (fun a b => le a b = true) := by
  induction l with
  | nil => simp [jsStableSortBy]
  | cons x xs ih => exact jsSortInsert_pairwise le htot htrans x _ ih

/-- When the comparator accepts every pair the stable sort is the
identity: each element is inserted in front. -/
theorem jsStableSortBy_of_all (le : α → α → Bool) (l : List α)
    (h : ∀ a, a ∈ l → ∀ b, b ∈ l → le a b = true) :
    jsStableSortBy le l = l := by
  induction l with
  | nil => simp [jsStableSortBy]
  | cons x xs ih =>
    unfold jsStableSortBy
    have hxs : jsStableSortBy le xs = xs :=
      ih (fun a ha b hb => h a (List.mem_cons_of_mem x ha) b (List.mem_cons_of_mem x hb))
    rw [hxs]
    cases xs with
    | nil => simp [jsSortInsert]
    | cons y ys =>
      unfold jsSortInsert
      rw [if_pos (h x (List.mem_cons_self x _) y (List.mem_cons_of_mem x (List.mem_cons_self y ys)))]

/-- Field facts of any successfully decoded datum: the value quotient, the
inverse of the formatted value, and the `decoded[0]` sentinel stored in
`datum_hash`. -/
theorem decodeDatum_fields (dec : DecodedDatum) (cp : CurrencyPairDatumT)
    (h : decodeDatum dec = some cp) :
    cp.value = (dec.numerator : Rat) / (dec.denominator : Rat) ∧
      cp.inverse_value = 1 / jsFormatValue cp.value ∧
      cp.datum_hash = datumSentinelString dec := by
  unfold decodeDatum at h
  by_cases hv : feedIdValid dec.feedIdUtf8
  · rw [if_pos hv, Option.some.injEq] at h
    subst h
    exact ⟨rfl, rfl, rfl⟩
  · rw [if_neg hv] at h
    exact absurd h (by simp)

/-- Index-wise characterization of the per-match loop: a success of
`processMatchesFrom` starting at `i` pairs the j-th produced fact with the
j-th match via `processMatchStep` at loop index `i + j`. -/
theorem processMatchesFrom_spec (net : NetworkT) (dsvc : String → Option DecodedDatum)
    (fres : String → String) (txId : String) (tmeta : List MetaItem) :
    ∀ (ms : List KupoMatchT) (i : Nat) (fs : List FactRec),
      processMatchesFrom net dsvc fres txId tmeta i ms = .ok fs →
      fs.length = ms.length ∧
        ∀ j m, ms.get? j = some m →
          ∃ f, fs.get? j = some f ∧
            processMatchStep net dsvc fres txId tmeta (i + j) m = .ok f := by
  intro ms
  induction ms with
  | nil =>
    intro i fs h
    unfold processMatchesFrom at h
    rw [Except.ok.injEq] at h
    subst h
    exact ⟨rfl, by intro j m hm; simp at hm⟩
  | cons m rest ih =>
    intro i fs h
    unfold processMatchesFrom at h
    cases hstep : processMatchStep net dsvc fres txId tmeta i m with
    | error e => rw [hstep] at h; simp at h
    | ok f =>
      rw [hstep] at h
      cases hrec : processMatchesFrom net dsvc fres txId tmeta (i + 1) rest with
      | error e => rw [hrec] at h; simp at h
      | ok fs2 =>
        rw [hrec, Except.ok.injEq] at h
        subst h
        obtain ⟨hlen, hall⟩ := ih (i + 1) fs2 hrec
        refine ⟨by simp [hlen], ?_⟩
        intro j mm hm
        cases j with
        | zero =>
          rw [List.get?_cons_zero, Option.some.injEq] at hm
          subst hm
          exact ⟨f, rfl, by simpa using hstep⟩
        | succ j2 =>
          rw [List.get?_cons_succ] at hm
          obtain ⟨f2, hf2, hstep2⟩ := hall j2 mm hm
          refine ⟨f2, by simpa using hf2, ?_⟩
          have harith : i + 1 + j2 = i + (j2 + 1) := by omega
          rwa [harith] at hstep2

/-- C1 (amended): every fact statement assembled by the per-transaction
loop has `publication_date = slotToDate(slot, network)` and
`value_inverse = 1 / formattedValue`, and its `statement_hash` is the
BLAKE2b-256 hex digest of the decoded-datum sentinel `decoded[0]`
(stringified) concatenated with the fact URN; the sentinel, not the
stored `datum_hash` field of the fact, feeds the hash. -/
theorem processTx_fact_invariants (net : NetworkT) (dsvc : String → Option DecodedDatum)
    (fres : String → String) (msvc : String → Int → Option (List MetaItem))
    (txId : String) (ms : List KupoMatchT) (facts : List FactRec)
    (h : processTx net dsvc fres msvc txId ms = .ok facts) :
    ∀ f ∈ facts,
      f.publication_date = slotToDate f.slot net ∧
      f.value_inverse = 1 / jsFormatValue f.value ∧
      ∃ m dhash dec cp,
        m ∈ ms ∧ m.datum_hash = some dhash ∧ dsvc dhash = some dec ∧
        decodeDatum dec = some cp ∧ f.datum_hash = dhash ∧
        cp.datum_hash = datumSentinelString dec ∧
        f.statement_hash = blake2bHexOfString (cp.datum_hash ++ f.fact_urn) := by
  intro f hf
  cases ms with
  | nil => simp [processTx] at h
  | cons m0 rest2 =>
    simp only [processTx] at h
    by_cases hslot : (m0 :: rest2).any (fun tx => tx.created_at_slot_no != m0.created_at_slot_no)
    · rw [if_pos hslot] at h; simp at h
    · rw [if_neg hslot] at h
      cases hmeta : msvc txId m0.created_at_slot_no with
      | none => rw [hmeta] at h; simp at h
      | some metadataList =>
        rw [hmeta] at h
        obtain ⟨hlen, hall⟩ :=
          processMatchesFrom_spec net dsvc fres txId (stripToS metadataList) (m0 :: rest2) 0 facts h
        obtain ⟨j, hj⟩ := List.get?_of_mem hf
        obtain ⟨m, hm⟩ : ∃ m, (m0 :: rest2).get? j = some m := by
          cases hg : (m0 :: rest2).get? j with
          | none =>
            have hge := List.get?_eq_none.mp hg
            have hlt : j < facts.length := (List.get?_eq_some.mp hj).1
            omega
          | some m => exact ⟨m, rfl⟩
        obtain ⟨f2, hf2, hstep⟩ := hall j m hm
        have hff : f2 = f := by
          rw [hj] at hf2
          exact ((Option.some.injEq _ _).mp hf2).symm
        subst hff
        unfold processMatchStep at hstep
        split at hstep
        · simp at hstep
        · rename_i dhash hdh
          split at hstep
          · simp at hstep
          · rename_i cp hbind
            split at hstep
            · simp at hstep
            · rename_i lp hlast
              split at hstep
              · simp at hstep
              · rename_i fact_urn srcRaw hentry
                rw [Except.ok.injEq] at hstep
                obtain ⟨dec, hdsvc, hdec⟩ := Option.bind_eq_some.mp hbind
                obtain ⟨hv, hinv, hsent⟩ := decodeDatum_fields dec cp hdec
                subst hstep
                refine ⟨rfl, ?_, m, dhash, dec, cp, List.get?_mem hm, hdh, hdsvc, hdec, rfl,
                  hsent, rfl⟩
                show cp.inverse_value = 1 / jsFormatValue cp.value
                exact hinv

/-- The Kupo datum hash of the C1 scenario match. -/
def c1DatumHash : String :=
  "9f3a6d2b8c1e4f70a5b6c7d8e9f0a1b2c3d4e5f60718293a4b5c6d7e8f901234"

/-- The single match of the C1 scenario transaction. -/
def c1Match : KupoMatchT :=
  { transaction_index := 0
    transaction_id := "tx1"
    output_index := 0
    address := "addr_test1vr6lx"
    coins := 2000000
    assets := []
    datum_hash := some c1DatumHash
    datum_type := "inline"
    script_hash := none
    created_at_slot_no := 1000
    created_at_header_hash := "blockhashC1"
    spent_at := none }

/-- Datum service of the C1 scenario: the stored hash resolves to the S1
decoded datum. -/
def c1DatumSvc : String → Option DecodedDatum :=
  fun dh => if dh = c1DatumHash then some s1Datum else none

/-- Metadata service of the C1 scenario: one DatumMetadata entry. -/
def c1MetaSvc : String → Int → Option (List MetaItem) :=
  fun _ _ => some [MetaItem.mpair "urn:orcfax:fact-c1" "urn:orcfax:storage:c1"]

/-- Feed resolver of the C1 scenario. -/
def c1FeedResolver : String → String := fun _ => "feedrec1"

/-- The fact statement assembled in the C1 scenario. -/
def c1Fact : FactRec :=
  mkFactStatement previewNet "tx1" "feedrec1" { id := "pol1", policy_id := "aaaa", starting_slot := 50 }
    c1Match c1DatumHash s1Cp "urn:orcfax:fact-c1" "urn:orcfax:storage:c1"

set_option maxRecDepth 40000 in
/-- Counterexample to C1 as stated: the fact assembled for the C1
scenario transaction carries a `statement_hash` that is not the BLAKE2b
digest of its stored `datum_hash` concatenated with its fact URN (the
source hashes the decoded-datum sentinel instead). -/
theorem processTx_statement_hash_counterexample :
    processTx previewNet c1DatumSvc c1FeedResolver c1MetaSvc "tx1" [c1Match] = .ok [c1Fact] ∧
      c1Fact.statement_hash ≠ blake2bHexOfString (c1Fact.datum_hash ++ c1Fact.fact_urn) :=
  ⟨rfl, by decide⟩

/-- Witness for the amended C1: the invariants theorem applied to the
concrete C1 scenario. -/
theorem processTx_fact_invariants_witness :
    processTx previewNet c1DatumSvc c1FeedResolver c1MetaSvc "tx1" [c1Match] = .ok [c1Fact] ∧
      (c1Fact.publication_date = slotToDate c1Fact.slot previewNet ∧
        c1Fact.value_inverse = 1 / jsFormatValue c1Fact.value ∧
        ∃ m dhash dec cp,
          m ∈ [c1Match] ∧ m.datum_hash = some dhash ∧ c1DatumSvc dhash = some dec ∧
          decodeDatum dec = some cp ∧ c1Fact.datum_hash = dhash ∧
          cp.datum_hash = datumSentinelString dec ∧
          c1Fact.statement_hash = blake2bHexOfString (cp.datum_hash ++ c1Fact.fact_urn)) :=
  ⟨rfl, processTx_fact_invariants previewNet c1DatumSvc c1FeedResolver c1MetaSvc "tx1"
    [c1Match] [c1Fact] rfl c1Fact (by simp)⟩

/-- C4 (amended): when the metadata list head is a ToS disclaimer it is
skipped, and entry `j` of the remainder supplies the fact URN and storage
URN of the output at position `j` of the match list (which
`groupMatchesByTx` orders by `output_index` ascending); the pairing is by
list position, not by the `output_index` value itself. -/
theorem processTx_metadata_pairing (net : NetworkT) (dsvc : String → Option DecodedDatum)
    (fres : String → String) (msvc : String → Int → Option (List MetaItem))
    (txId : String) (m0 : KupoMatchT) (tail2 : List KupoMatchT)
    (tosItem : MetaItem) (rest : List MetaItem) (facts : List FactRec)
    (htos : isOrcfaxToS tosItem = true)
    (hmeta : msvc txId m0.created_at_slot_no = some (tosItem :: rest))
    (h : processTx net dsvc fres msvc txId (m0 :: tail2) = .ok facts) :
    (facts.length = (m0 :: tail2).length ∧
      ∀ j f, facts.get? j = some f →
        ∃ m urn src, (m0 :: tail2).get? j = some m ∧
          rest.get? j = some (MetaItem.mpair urn src) ∧
          f.output_index = m.output_index ∧ f.fact_urn = urn ∧
          f.storage_urn = normalizeStorageUrn src) ∧
    ∀ (raw : List KupoMatchT) (kv : String × List KupoMatchT),
      kv ∈ groupMatchesByTx raw →
      kv.2.Pairwise (fun a b => a.output_index ≤ b.output_index) := by
  constructor
  · simp only [processTx] at h
    by_cases hslot : (m0 :: tail2).any (fun tx => tx.created_at_slot_no != m0.created_at_slot_no)
    · rw [if_pos hslot] at h; simp at h
    · rw [if_neg hslot, hmeta] at h
      have hstrip : stripToS (tosItem :: rest) = rest := by
        simp [stripToS, htos]
      simp only [hstrip] at h
      obtain ⟨hlen, hall⟩ :=
        processMatchesFrom_spec net dsvc fres txId rest (m0 :: tail2) 0 facts h
      refine ⟨hlen, ?_⟩
      intro j f hf
      obtain ⟨m, hm⟩ : ∃ m, (m0 :: tail2).get? j = some m := by
        cases hg : (m0 :: tail2).get? j with
        | none =>
          have hge := List.get?_eq_none.mp hg
          have hlt : j < facts.length := (List.get?_eq_some.mp hf).1
          omega
        | some m => exact ⟨m, rfl⟩
      obtain ⟨f2, hf2, hstep⟩ := hall j m hm
      have hff : f2 = f := by
        rw [hf] at hf2
        exact ((Option.some.injEq _ _).mp hf2).symm
      subst hff
      unfold processMatchStep at hstep
      split at hstep
      · simp at hstep
      · rename_i dhash hdh
        split at hstep
        · simp at hstep
        · rename_i cp hbind
          split at hstep
          · simp at hstep
          · rename_i lp hlast
            split at hstep
            · simp at hstep
            · rename_i fact_urn srcRaw hentry
              rw [Except.ok.injEq] at hstep
              subst hstep
              refine ⟨m, fact_urn, srcRaw, hm, ?_, rfl, rfl, rfl⟩
              unfold metaEntryAt at hentry
              split at hentry
              · rename_i urn2 src2 hget
                rw [Option.some.injEq] at hentry
                obtain ⟨h1, h2⟩ := Prod.mk.injEq .. |>.mp hentry
                subst h1; subst h2
                simpa using hget
              · simp at hentry
  · intro raw kv hkv
    unfold groupMatchesByTx at hkv
    rw [List.mem_map] at hkv
    obtain ⟨ab, _, hab⟩ := hkv
    subst hab
    have hp := jsStableSortBy_pairwise (fun a b : KupoMatchT => a.output_index ≤ b.output_index)
      (fun a b => by simp [Int.le_total]) (fun a b c hab hbc => by
        simp only [decide_eq_true_eq] at *
        omega) ab.2
    exact hp.imp (fun hab => by simpa using hab)

/-- The policy record of the Preview test network. -/
def pol1 : PolicyT := { id := "pol1", policy_id := "aaaa", starting_slot := 50 }

/-- The ToS disclaimer head element used in the C4 scenarios. -/
def c4Tos : MetaItem := MetaItem.mstr "Use oracle data at your own risk: https://orcfax.io/tos/"

/-- Metadata list of the C4 scenarios: the ToS head and four entries. -/
def c4MetaList : List MetaItem :=
  [c4Tos, MetaItem.mpair "urn:u0" "urn:s0", MetaItem.mpair "urn:u1" "urn:s1",
   MetaItem.mpair "urn:u2" "urn:s2", MetaItem.mpair "urn:u3" "urn:s3"]

/-- Datum service of the C4 scenarios: every hash resolves to the S1
decoded datum. -/
def c4DatumSvc : String → Option DecodedDatum := fun _ => some s1Datum

/-- Metadata service of the C4 scenarios. -/
def c4MetaSvc : String → Int → Option (List MetaItem) := fun _ _ => some c4MetaList

/-- Feed resolver of the C4 scenarios. -/
def c4FeedResolver : String → String := fun _ => "feedrec4"

/-- A match with `output_index = 3` (counterexample scenario). -/
def c4Match3 : KupoMatchT :=
  { c1Match with transaction_id := "tx4", output_index := 3, created_at_slot_no := 2000 }

/-- A match with `output_index = 7` (counterexample scenario). -/
def c4Match7 : KupoMatchT :=
  { c1Match with transaction_id := "tx4", output_index := 7, created_at_slot_no := 2000 }

/-- The fact assembled for the `output_index = 3` match. -/
def c4Fact3 : FactRec :=
  mkFactStatement previewNet "tx4" "feedrec4" pol1 c4Match3 c1DatumHash s1Cp "urn:u0" "urn:s0"

/-- The fact assembled for the `output_index = 7` match. -/
def c4Fact7 : FactRec :=
  mkFactStatement previewNet "tx4" "feedrec4" pol1 c4Match7 c1DatumHash s1Cp "urn:u1" "urn:s1"

set_option maxRecDepth 40000 in
/-- Counterexample to C4 as stated: with outputs at indexes 3 and 7, the
output whose `output_index` is 3 receives the URNs of entry 0 of the
remainder, not of entry 3, although entry 3 exists and differs. -/
theorem processTx_metadata_pairing_counterexample :
    processTx previewNet c4DatumSvc c4FeedResolver c4MetaSvc "tx4" [c4Match3, c4Match7]
        = .ok [c4Fact3, c4Fact7] ∧
      c4Fact3.output_index = 3 ∧
      c4Fact3.fact_urn = "urn:u0" ∧
      (stripToS c4MetaList).get? 3 = some (MetaItem.mpair "urn:u3" "urn:s3") ∧
      c4Fact3.fact_urn ≠ "urn:u3" :=
  ⟨rfl, rfl, rfl, rfl, by decide⟩

/-- The first match of the S5 witness scenario (`output_index = 0`). -/
def c4w0 : KupoMatchT :=
  { c1Match with transaction_id := "tx4w", output_index := 0, created_at_slot_no := 2100 }

/-- The second match of the S5 witness scenario (`output_index = 1`). -/
def c4w1 : KupoMatchT :=
  { c1Match with transaction_id := "tx4w", output_index := 1, created_at_slot_no := 2100 }

/-- The fact assembled for the S5 output 0, paired with entry 0. -/
def c4wFact0 : FactRec :=
  mkFactStatement previewNet "tx4w" "feedrec4" pol1 c4w0 c1DatumHash s1Cp "urn:u0" "urn:s0"

/-- The fact assembled for the S5 output 1, paired with entry 1. -/
def c4wFact1 : FactRec :=
  mkFactStatement previewNet "tx4w" "feedrec4" pol1 c4w1 c1DatumHash s1Cp "urn:u1" "urn:s1"

set_option maxRecDepth 40000 in
/-- Witness for the amended C4: the pairing theorem applied to the S5
scenario (ToS head plus entries, outputs 0 and 1). -/
theorem processTx_metadata_pairing_witness :
    isOrcfaxToS c4Tos = true ∧
      c4MetaSvc "tx4w" c4w0.created_at_slot_no = some (c4Tos :: c4MetaList.tail) ∧
      processTx previewNet c4DatumSvc c4FeedResolver c4MetaSvc "tx4w" [c4w0, c4w1]
        = .ok [c4wFact0, c4wFact1] ∧
      (([c4wFact0, c4wFact1] : List FactRec).length = ([c4w0, c4w1] : List KupoMatchT).length ∧
        ∀ j f, ([c4wFact0, c4wFact1] : List FactRec).get? j = some f →
          ∃ m urn src, ([c4w0, c4w1] : List KupoMatchT).get? j = some m ∧
            c4MetaList.tail.get? j = some (MetaItem.mpair urn src) ∧
            f.output_index = m.output_index ∧ f.fact_urn = urn ∧
            f.storage_urn = normalizeStorageUrn src) ∧
      (∀ (raw : List KupoMatchT) (kv : String × List KupoMatchT),
        kv ∈ groupMatchesByTx raw →
        kv.2.Pairwise (fun a b => a.output_index ≤ b.output_index)) := by
  have hmain := processTx_metadata_pairing previewNet c4DatumSvc c4FeedResolver c4MetaSvc
    "tx4w" c4w0 [c4w1] c4Tos c4MetaList.tail [c4wFact0, c4wFact1]
    (by decide) rfl rfl
  exact ⟨by decide, rfl, rfl, hmain.1, hmain.2⟩

/-- C6 (amended): `indexFactStatements` issues its insert calls in
`validation_date`-descending order (a stable sort of the batch); the
result is a permutation of the batch, and the batch order — hence the
ascending `output_index` order it arrives in — is preserved exactly when
all facts of the batch share one `validation_date`. -/
theorem indexFactStatements_insert_order (facts : List FactRec) :
    (indexFactStatementsOrder facts).Pairwise
        (fun a b => b.validation_date ≤ a.validation_date) ∧
      (indexFactStatementsOrder facts).Perm facts ∧
      ((∀ a ∈ facts, ∀ b ∈ facts, a.validation_date = b.validation_date) →
        indexFactStatementsOrder facts = facts) := by
  refine ⟨?_, ?_, ?_⟩
  · have hp := jsStableSortBy_pairwise
      (fun a b : FactRec => b.validation_date ≤ a.validation_date)
      (fun a b => by simp [Int.le_total])
      (fun a b c hab hbc => by
        simp only [decide_eq_true_eq] at *
        omega)
      facts
    exact hp.imp (fun h => by simpa using h)
  · exact jsStableSortBy_perm _ facts
  · intro hall
    exact jsStableSortBy_of_all _ facts
      (fun a ha b hb => by simp [hall a ha b hb])

/-- First fact of the C6 counterexample batch: `output_index = 0`,
`validation_date = 100`. -/
def c6FactA : FactRec :=
  { network := "net_preview"
    policy := "pol1"
    fact_urn := "urn:orcfax:c6a"
    storage_urn := ""
    feed := "feedrec6"
    transaction_id := "tx6"
    block_hash := "blockhashC6"
    slot := 30
    address := "addr_test1vr6lx"
    value := 1
    value_inverse := 1
    validation_date := 100
    publication_date := 0
    publication_cost := 0
    output_index := 0
    statement_hash := "aa"
    storage_cost := 0
    is_archive_indexed := false
    datum_hash := "d6a" }

/-- Second fact of the C6 counterexample batch: `output_index = 1`,
`validation_date = 200`. -/
def c6FactB : FactRec :=
  { c6FactA with fact_urn := "urn:orcfax:c6b", output_index := 1, validation_date := 200 }

/-- Counterexample to C6 as stated: a single-transaction batch arriving
in ascending `output_index` order `[0, 1]` is inserted in order `[1, 0]`
because the second fact has the later validation date. -/
theorem indexFactStatements_order_counterexample :
    indexFactStatementsOrder [c6FactA, c6FactB] = [c6FactB, c6FactA] ∧
      c6FactA.transaction_id = c6FactB.transaction_id ∧
      c6FactA.output_index < c6FactB.output_index ∧
      (indexFactStatementsOrder [c6FactA, c6FactB]).map FactRec.output_index = [1, 0] :=
  ⟨rfl, rfl, by decide, rfl⟩

/-- A batch sharing one validation date, for the C6 witness. -/
def c6FactC : FactRec :=
  { c6FactA with fact_urn := "urn:orcfax:c6c", output_index := 1, validation_date := 100 }

/-- Witness for the amended C6: the ordering theorem applied to a batch
with equal validation dates, whose insert order is the batch itself. -/
theorem indexFactStatements_insert_order_witness :
    (indexFactStatementsOrder [c6FactA, c6FactC]).Pairwise
        (fun a b => b.validation_date ≤ a.validation_date) ∧
      (indexFactStatementsOrder [c6FactA, c6FactC]).Perm [c6FactA, c6FactC] ∧
      indexFactStatementsOrder [c6FactA, c6FactC] = [c6FactA, c6FactC] :=
  ⟨(indexFactStatements_insert_order [c6FactA, c6FactC]).1,
    (indexFactStatements_insert_order [c6FactA, c6FactC]).2.1,
    (indexFactStatements_insert_order [c6FactA, c6FactC]).2.2 (by decide)⟩

/-! ## Conditional fetch, rollback repair and sync (kupo.ts lines 227-317)

The HTTP exchange is modelled by a response value `KupoHttpResponse`
(status, the two relevant headers, and the parsed body, where `none`
models a body that fails JSON or schema parsing).  Store calls are
emitted as an explicit `SyncEffect` list in source order; exceptions that
`fetchMatchesFromKupo` catches are modelled by an `Option` result. -/

/-- The query parameters of `KupoRequestOptions` (only used to build the
request URL in the source; carried for shape). -/
structure KupoQueryParams where
  order : Option String
  created_after : Option String
  created_before : Option String
deriving DecidableEq, Repr

/-- Embedding of `KupoRequestOptions`. -/
structure KupoRequestOptionsT where
  lastBlockHash : Option String
  lastCheckpointSlot : Option Int
  queryParams : Option KupoQueryParams
deriving DecidableEq, Repr

/-- An HTTP response of the matches endpoint: status, the
`x-most-recent-checkpoint` and `etag` headers (absent = `none`), and the
body as parsed matches (`none` models a JSON or schema parse failure). -/
structure KupoHttpResponse where
  status : Nat
  checkpointHeader : Option String
  etagHeader : Option String
  body : Option (List KupoMatchT)
deriving DecidableEq, Repr

/-- Embedding of `KupoMatchesResponse`.  `lastCheckpointSlot` is optional
because `parseInt` of a malformed header would be `NaN`, modelled as
`none`; on every path the claims exercise it is a concrete integer. -/
structure KupoMatchesResponseT where
  lastBlockHash : String
  lastCheckpointSlot : Option Int
  transactions : List (String × List KupoMatchT)
deriving DecidableEq, Repr

/-- A store call issued by the sync pipeline, in source order. -/
inductive SyncEffect where
  | deleteFactsGT (networkId : String) (slot : Int)
  | insertFact (fact : FactRec)
  | updateNetwork (networkId : String) (lastCheckpointSlot : Option Int) (lastBlockHash : String)
deriving DecidableEq, Repr

/-- The `If-None-Match` header sent by `fetchMatchesFromKupo`: present
exactly when `options.lastBlockHash` is truthy. -/
def ifNoneMatchHeader (options : KupoRequestOptionsT) : Option String :=
  if jsTruthyOptStr options.lastBlockHash then options.lastBlockHash else none

/-- The rollback condition of kupo.ts line 290:
`options.lastCheckpointSlot && mostRecentCheckpointSlot <
options.lastCheckpointSlot` (a `NaN` reported slot compares false). -/
def checkpointRollback (stored reported : Option Int) : Bool :=
  jsTruthyOptInt stored &&
    (match reported, stored with
     | some c, some st => decide (c < st)
     | _, _ => false)

/-- Embedding of `fetchMatchesFromKupo`: the effect list holds the store
calls issued (only the rollback deletion), the second component the
returned value, with `none` for both the 304 path and any thrown-and-
caught error. -/
def fetchMatchesFromKupo (net : NetworkT) (options : KupoRequestOptionsT)
    (resp : KupoHttpResponse) : List SyncEffect × Option KupoMatchesResponseT :=
  if resp.status = 304 then ([], none)
  else
    let mostRecentCheckpointSlot := jsParseIntDec (jsOrDefault resp.checkpointHeader "0")
    let mostRecentBlockHash := resp.etagHeader.getD ""
    if mostRecentCheckpointSlot == some 0 || mostRecentBlockHash == "" then ([], none)
    else
      let effs :=
        if checkpointRollback options.lastCheckpointSlot mostRecentCheckpointSlot then
          [SyncEffect.deleteFactsGT net.id (mostRecentCheckpointSlot.getD 0)]
        else []
      match resp.body with
      | none => (effs, none)
      | some ms =>
        (effs, some { lastBlockHash := mostRecentBlockHash
                      lastCheckpointSlot := mostRecentCheckpointSlot
                      transactions := groupMatchesByTx ms })

/-- Store effects of `parseAndIndexMatches` over the grouped
transactions: per transaction the ordered insert calls of
`indexFactStatements`; a thrown per-transaction error (second component
`false`) aborts the remaining groups. -/
def parseAndIndexEffects (net : NetworkT) (dsvc : String → Option DecodedDatum)
    (fres : String → String) (msvc : String → Int → Option (List MetaItem)) :
    List (String × List KupoMatchT) → List SyncEffect × Bool
  | [] => ([], true)
  | (txId, ms) :: rest =>
    match processTx net dsvc fres msvc txId ms with
    | .error _ => ([], false)
    | .ok facts =>
      let q := parseAndIndexEffects net dsvc fres msvc rest
      ((indexFactStatementsOrder facts).map SyncEffect.insertFact ++ q.1, q.2)

/-- The request options `syncFactStatements` builds from the stored
network record when called without explicit options. -/
def defaultSyncOptions (net : NetworkT) : KupoRequestOptionsT :=
  { lastBlockHash := some net.last_block_hash
    lastCheckpointSlot := some net.last_checkpoint_slot
    queryParams := some { order := some "oldest_first"
                          created_after := some (toString net.last_checkpoint_slot)
                          created_before := none } }

/-- Embedding of `syncFactStatements` (kupo.ts lines 228 to 255): fetch,
then parse-and-index, then the network checkpoint update.  The result is
`none` when an uncaught per-transaction exception escapes, otherwise the
returned `(lastCheckpointSlot, lastBlockHash)` pair. -/
def syncFactStatements (net : NetworkT) (dsvc : String → Option DecodedDatum)
    (fres : String → String) (msvc : String → Int → Option (List MetaItem))
    (resp : KupoHttpResponse) : List SyncEffect × Option (Option Int × String) :=
  let p := fetchMatchesFromKupo net (defaultSyncOptions net) resp
  match p.2 with
  | none => (p.1, some (some net.last_checkpoint_slot, net.last_block_hash))
  | some r =>
    let q := parseAndIndexEffects net dsvc fres msvc r.transactions
    if q.2 then
      (p.1 ++ q.1 ++ [SyncEffect.updateNetwork net.id r.lastCheckpointSlot r.lastBlockHash],
        some (r.lastCheckpointSlot, r.lastBlockHash))
    else (p.1 ++ q.1, none)

/-- A stored fact row as seen by `deleteFactsOlderThanSlot`. -/
structure StoredFact where
  id : String
  network : String
  slot : Int
deriving DecidableEq, Repr

/-- Embedding of `deleteFactsOlderThanSlot` (db.ts lines 158 to 172):
every fact of the network with `slot` strictly greater than the given
slot is deleted; the filter is the remaining store. -/
def deleteFactsOlderThanSlot (store : List StoredFact) (networkId : String) (slot : Int) :
    List StoredFact :=
  store.filter (fun fact => !(fact.network == networkId && slot < fact.slot))

/-- C2 (amended): on a 200 response whose checkpoint header parses to a
nonzero slot `c` below the stored nonzero checkpoint and whose etag is
present and nonempty, the first store call issued is the deletion of the
network's facts with slot above `c`, ahead of any parse or index effect;
the deletion keeps exactly the facts that are not of this network or not
above `c`. -/
theorem syncFactStatements_rollback_repair (net : NetworkT)
    (dsvc : String → Option DecodedDatum) (fres : String → String)
    (msvc : String → Int → Option (List MetaItem)) (resp : KupoHttpResponse) (c : Int)
    (hstatus : resp.status = 200)
    (hcp : jsParseIntDec (jsOrDefault resp.checkpointHeader "0") = some c)
    (hc0 : c ≠ 0)
    (hetag : resp.etagHeader.getD "" ≠ "")
    (hstored : net.last_checkpoint_slot ≠ 0)
    (hlt : c < net.last_checkpoint_slot) :
    (syncFactStatements net dsvc fres msvc resp).1.head?
        = some (SyncEffect.deleteFactsGT net.id c) ∧
      ∀ (store : List StoredFact) (f : StoredFact),
        f ∈ deleteFactsOlderThanSlot store net.id c ↔
          (f ∈ store ∧ ¬(f.network = net.id ∧ c < f.slot)) := by
  constructor
  · have h304 : ¬resp.status = 304 := by omega
    have hguard : ((some c == some (0 : Int)) || (resp.etagHeader.getD "" == "")) = false := by
      simp [hc0, hetag]
    have hroll : checkpointRollback (some net.last_checkpoint_slot) (some c) = true := by
      simp [checkpointRollback, jsTruthyOptInt, hstored, hlt]
    simp only [syncFactStatements, fetchMatchesFromKupo, if_neg h304, hcp, hguard,
      Bool.false_eq_true, if_false, defaultSyncOptions, hroll, if_true]
    cases hbody : resp.body with
    | none => simp
    | some ms =>
      by_cases hq : (parseAndIndexEffects net dsvc fres msvc (groupMatchesByTx ms)).2 = true
      · simp [hq]
      · simp [hq]
  · intro store f
    simp only [deleteFactsOlderThanSlot, List.mem_filter, Bool.not_eq_eq_eq_not,
      Bool.not_true, Bool.and_eq_false_imp]
    constructor
    · intro ⟨hmem, hcond⟩
      refine ⟨hmem, ?_⟩
      intro ⟨hn, hs⟩
      simp only [beq_iff_eq, decide_eq_true_eq] at hcond
      have := hcond hn
      simp only [decide_eq_false_iff_not] at this
      exact this hs
    · intro ⟨hmem, hcond⟩
      refine ⟨hmem, ?_⟩
      simp only [beq_iff_eq]
      intro hn
      simp only [decide_eq_false_iff_not]
      intro hs
      exact hcond ⟨hn, hs⟩

/-- A datum service that always fails (unused by the 304 and header
scenarios). -/
def cNoDatumSvc : String → Option DecodedDatum := fun _ => none

/-- A metadata service that always fails (unused by the 304 and header
scenarios). -/
def cNoMetaSvc : String → Int → Option (List MetaItem) := fun _ _ => none

/-- A trivial feed resolver (unused by the 304 and header scenarios). -/
def cNoFeedRes : String → String := fun _ => ""

/-- The S3-with-missing-etag response: status 200, checkpoint header 90,
no etag. -/
def c2RespNoEtag : KupoHttpResponse :=
  { status := 200, checkpointHeader := some "90", etagHeader := none, body := some [] }

/-- Counterexample to C2 as stated: a 200 response reporting checkpoint
90 below the stored nonzero checkpoint 100, but with the etag header
missing: the fetch fails before the rollback repair and no deletion (nor
any other store call) is issued. -/
theorem syncFactStatements_rollback_counterexample :
    c2RespNoEtag.status = 200 ∧
      jsParseIntDec (jsOrDefault c2RespNoEtag.checkpointHeader "0") = some 90 ∧
      previewNet.last_checkpoint_slot = 100 ∧ (90 : Int) < 100 ∧
      (syncFactStatements previewNet cNoDatumSvc cNoFeedRes cNoMetaSvc c2RespNoEtag).1 = [] ∧
      (syncFactStatements previewNet cNoDatumSvc cNoFeedRes cNoMetaSvc c2RespNoEtag).2
        = some (some 100, "abcd") := by
  refine ⟨rfl, by decide, rfl, by decide, rfl, rfl⟩

/-- The S3 response: status 200, checkpoint header 90, etag present. -/
def c2RespOk : KupoHttpResponse :=
  { status := 200, checkpointHeader := some "90", etagHeader := some "efgh", body := some [] }

/-- A concrete store for the C2 witness. -/
def c2Store : List StoredFact :=
  [{ id := "f1", network := "net_preview", slot := 95 },
   { id := "f2", network := "net_preview", slot := 80 },
   { id := "f3", network := "other", slot := 95 }]

/-- Witness for the amended C2: the rollback theorem applied to the S3
scenario (stored checkpoint 100, reported 90) and to a concrete store. -/
theorem syncFactStatements_rollback_repair_witness :
    (syncFactStatements previewNet cNoDatumSvc cNoFeedRes cNoMetaSvc c2RespOk).1.head?
        = some (SyncEffect.deleteFactsGT previewNet.id 90) ∧
      (({ id := "f1", network := "net_preview", slot := 95 } : StoredFact)
          ∈ deleteFactsOlderThanSlot c2Store previewNet.id 90 ↔
        (({ id := "f1", network := "net_preview", slot := 95 } : StoredFact) ∈ c2Store ∧
          ¬(("net_preview" : String) = previewNet.id ∧ (90 : Int) < 95))) :=
  ⟨(syncFactStatements_rollback_repair previewNet cNoDatumSvc cNoFeedRes cNoMetaSvc
      c2RespOk 90 rfl (by decide) (by decide) (by decide) (by decide) (by decide)).1,
    (syncFactStatements_rollback_repair previewNet cNoDatumSvc cNoFeedRes cNoMetaSvc
      c2RespOk 90 rfl (by decide) (by decide) (by decide) (by decide) (by decide)).2
      c2Store { id := "f1", network := "net_preview", slot := 95 }⟩

/-- C7: when the stored block hash is sent as `If-None-Match` and the
server answers 304, the sync performs no store call at all (no inserts,
no deletion, no network update), raises no error, and returns the stored
checkpoint slot and block hash unchanged. -/
theorem syncFactStatements_304_noop (net : NetworkT)
    (dsvc : String → Option DecodedDatum) (fres : String → String)
    (msvc : String → Int → Option (List MetaItem)) (resp : KupoHttpResponse)
    (hsent : ifNoneMatchHeader (defaultSyncOptions net) = some net.last_block_hash)
    (h304 : resp.status = 304) :
    syncFactStatements net dsvc fres msvc resp
      = ([], some (some net.last_checkpoint_slot, net.last_block_hash)) := by
  simp only [syncFactStatements, fetchMatchesFromKupo, h304, if_pos]

/-- The S2 response: a bare 304. -/
def c7Resp : KupoHttpResponse :=
  { status := 304, checkpointHeader := none, etagHeader := none, body := none }

/-- Witness for C7: the 304 theorem on the Preview network (stored hash
`abcd` sent as `If-None-Match`). -/
theorem syncFactStatements_304_noop_witness :
    ifNoneMatchHeader (defaultSyncOptions previewNet) = some previewNet.last_block_hash ∧
      c7Resp.status = 304 ∧
      syncFactStatements previewNet cNoDatumSvc cNoFeedRes cNoMetaSvc c7Resp
        = ([], some (some previewNet.last_checkpoint_slot, previewNet.last_block_hash)) :=
  ⟨by decide, rfl,
    syncFactStatements_304_noop previewNet cNoDatumSvc cNoFeedRes cNoMetaSvc c7Resp
      (by decide) rfl⟩

/-- C8: a 200 response missing the `x-most-recent-checkpoint` header or
the `etag` header makes the fetch fail: no matches are processed, no
store call is issued, and the sync returns the stored checkpoint slot and
block hash unchanged. -/
theorem fetchMatches_missing_headers (net : NetworkT) (options : KupoRequestOptionsT)
    (dsvc : String → Option DecodedDatum) (fres : String → String)
    (msvc : String → Int → Option (List MetaItem)) (resp : KupoHttpResponse)
    (hstatus : resp.status = 200)
    (hmiss : resp.checkpointHeader = none ∨ resp.etagHeader = none) :
    fetchMatchesFromKupo net options resp = ([], none) ∧
      syncFactStatements net dsvc fres msvc resp
        = ([], some (some net.last_checkpoint_slot, net.last_block_hash)) := by
  have h304 : ¬resp.status = 304 := by omega
  have hguard : ∀ opts : KupoRequestOptionsT,
      fetchMatchesFromKupo net opts resp = ([], none) := by
    intro opts
    rcases hmiss with hcp | het
    · simp only [fetchMatchesFromKupo, if_neg h304, hcp, jsOrDefault]
      have : jsParseIntDec "0" = some 0 := by decide
      simp [this]
    · simp only [fetchMatchesFromKupo, if_neg h304, het]
      simp
  refine ⟨hguard options, ?_⟩
  simp only [syncFactStatements, hguard (defaultSyncOptions net)]

/-- A 200 response with no checkpoint header. -/
def c8Resp : KupoHttpResponse :=
  { status := 200, checkpointHeader := none, etagHeader := some "zzzz", body := some [] }

/-- Witness for C8: the missing-header theorem on a 200 response without
`x-most-recent-checkpoint`. -/
theorem fetchMatches_missing_headers_witness :
    c8Resp.status = 200 ∧ c8Resp.checkpointHeader = none ∧
      fetchMatchesFromKupo previewNet (defaultSyncOptions previewNet) c8Resp = ([], none) ∧
      syncFactStatements previewNet cNoDatumSvc cNoFeedRes cNoMetaSvc c8Resp
        = ([], some (some previewNet.last_checkpoint_slot, previewNet.last_block_hash)) :=
  ⟨rfl, rfl,
    (fetchMatches_missing_headers previewNet (defaultSyncOptions previewNet) cNoDatumSvc
      cNoFeedRes cNoMetaSvc c8Resp rfl (Or.inl rfl)).1,
    (fetchMatches_missing_headers previewNet (defaultSyncOptions previewNet) cNoDatumSvc
      cNoFeedRes cNoMetaSvc c8Resp rfl (Or.inl rfl)).2⟩

/-! ## Backfill populate loop (kupo.ts populateIndex, lines 56-91)

The while loop per policy is embedded with explicit fuel; `fetchOk`
models whether the windowed matches fetch succeeds (`false` is the
`response === null` sentinel that aborts the whole populate run). -/

/-- The window end `queryEndSlot` of one loop iteration. -/
def populateWindowEnd (net : NetworkT) (latestSlot currentSlot : Int) : Int :=
  let nextSlot := slotAfterTimePeriod currentSlot TimePeriod.day net
  if nextSlot < latestSlot then nextSlot else latestSlot

/-- Outcome of the windowed loop: normal exit with the fetched windows,
abort on a failed fetch, or fuel exhaustion (the modelling artifact that
the termination theorem rules out). -/
inductive PopulateLoopResult where
  | completed (windows : List (Int × Int))
  | abortedFetch (windows : List (Int × Int))
  | outOfFuel
deriving DecidableEq, Repr

/-- The `while (currentSlot < latestSlot)` loop of `populateIndex` with
explicit fuel. -/
def populateLoopGo (net : NetworkT) (latestSlot : Int) (fetchOk : Int → Int → Bool) :
    Nat → Int → PopulateLoopResult
  | 0, currentSlot =>
    if currentSlot < latestSlot then .outOfFuel else .completed []
  | Nat.succ k, currentSlot =>
    if currentSlot < latestSlot then
      let queryEndSlot := populateWindowEnd net latestSlot currentSlot
      if fetchOk currentSlot queryEndSlot then
        match populateLoopGo net latestSlot fetchOk k queryEndSlot with
        | .completed ws => .completed ((currentSlot, queryEndSlot) :: ws)
        | .abortedFetch ws => .abortedFetch ((currentSlot, queryEndSlot) :: ws)
        | .outOfFuel => .outOfFuel
      else .abortedFetch []
    else .completed []

/-- C10: with a positive slot length of at most one day in milliseconds,
each loop iteration strictly increases the current slot without passing
the latest slot, and the loop terminates (never exhausts a fuel budget of
`latestSlot - currentSlot` steps); it stops by reaching the latest slot
or by a failed fetch. -/
theorem populateIndex_loop_terminates (net : NetworkT) (latestSlot : Int)
    (fetchOk : Int → Int → Bool)
    (hpos : 0 < net.slot_length) (hday : net.slot_length ≤ 86400000) :
    (∀ currentSlot : Int, currentSlot < latestSlot →
        currentSlot < populateWindowEnd net latestSlot currentSlot ∧
          populateWindowEnd net latestSlot currentSlot ≤ latestSlot) ∧
      ∀ (currentSlot : Int) (fuel : Nat), (latestSlot - currentSlot).toNat ≤ fuel →
        populateLoopGo net latestSlot fetchOk fuel currentSlot ≠ .outOfFuel := by
  have hstep : ∀ currentSlot : Int, currentSlot < latestSlot →
      currentSlot < populateWindowEnd net latestSlot currentSlot ∧
        populateWindowEnd net latestSlot currentSlot ≤ latestSlot := by
    intro cur hcur
    have hone : 1 ≤ jsFloorDiv 86400000 net.slot_length := by
      unfold jsFloorDiv
      rw [Int.fdiv_eq_ediv _ (by omega)]
      rw [Int.le_ediv_iff_mul_le hpos]
      omega
    unfold populateWindowEnd slotAfterTimePeriod
    simp only [show (24 * 60 * 60 * 1000 : Int) = 86400000 by norm_num]
    by_cases hlt : cur + jsFloorDiv 86400000 net.slot_length < latestSlot
    · rw [if_pos hlt]
      omega
    · rw [if_neg hlt]
      omega
  refine ⟨hstep, ?_⟩
  intro cur fuel
  induction fuel generalizing cur with
  | zero =>
    intro hfuel
    unfold populateLoopGo
    rw [if_neg (by omega)]
    simp
  | succ k ih =>
    intro hfuel
    by_cases hcur : cur < latestSlot
    · obtain ⟨h1, h2⟩ := hstep cur hcur
      have hrec : (latestSlot - populateWindowEnd net latestSlot cur).toNat ≤ k := by omega
      unfold populateLoopGo
      rw [if_pos hcur]
      by_cases hf : fetchOk cur (populateWindowEnd net latestSlot cur)
      · rw [if_pos hf]
        cases hres : populateLoopGo net latestSlot fetchOk k (populateWindowEnd net latestSlot cur) with
        | completed ws => simp
        | abortedFetch ws => simp
        | outOfFuel => exact absurd hres (ih (populateWindowEnd net latestSlot cur) hrec)
      · rw [if_neg hf]
        simp
    · unfold populateLoopGo
      rw [if_neg hcur]
      simp

/-- Witness for C10 at the Preview time base: latest slot 200000, all
fetches succeeding, starting at slot 0 with fuel 200000. -/
theorem populateIndex_loop_terminates_witness :
    ((0 : Int) < populateWindowEnd previewNet 200000 0 ∧
        populateWindowEnd previewNet 200000 0 ≤ 200000) ∧
      populateLoopGo previewNet 200000 (fun _ _ => true) 200000 0 ≠ .outOfFuel :=
  ⟨(populateIndex_loop_terminates previewNet 200000 (fun _ _ => true)
      (by decide) (by decide)).1 0 (by decide),
    (populateIndex_loop_terminates previewNet 200000 (fun _ _ => true)
      (by decide) (by decide)).2 0 200000 (by decide)⟩

/-! ## Archive source extraction (getSourceDetailsFromArchive)

The per-source step of the cache reconciliation loop is embedded; store
calls are emitted as `ArchiveOp` values.  `new URL(sender)` is modelled
for absolute `scheme://host/...` URLs (the only shape the pipeline
receives); an unparseable sender is the thrown TypeError, modelled as
`none`. -/

/-- A hydrated `Source` record (fields read by the reconciliation). -/
structure SourceT where
  id : String
  network : String
  name : String
  type : String
  sender : String
  recipient : String
  status : String
  website : String
  image_path : String
  background_color : String
deriving DecidableEq, Repr

/-- A source record sent to `createSource` (no id yet); the presentation
fields default to empty when not carried forward. -/
structure SourceNewT where
  network : String
  name : String
  type : String
  sender : String
  recipient : String
  status : String
  website : String
  image_path : String
  background_color : String
deriving DecidableEq, Repr

/-- The fields of a parsed `FactSourceMessage` that the reconciliation
reads. -/
structure FactSourceMessageT where
  isBasedOnAdditionalType : String
  sender : String
  recipient : String
deriving DecidableEq, Repr

/-- A store call issued by the source reconciliation, in source order. -/
inductive ArchiveOp where
  | updateSourceStatus (id : String) (status : String)
  | createSource (s : SourceNewT)
deriving DecidableEq, Repr

/-- The `protocol` component of a URL: scheme plus the colon. -/
def jsUrlProtocol (s : String) : String :=
  String.mk (s.data.takeWhile (fun c => c != ':')) ++ ":"

/-- The `host` component of an absolute URL: what follows `://` up to the
first slash, query or fragment delimiter. -/
def jsUrlHost (s : String) : String :=
  String.mk (((jsSplit s "://").getD 1 "").data.takeWhile
    (fun c => c != '/' && c != '?' && c != '#'))

/-- Whether `new URL(s)` succeeds, modelled for the absolute
`scheme://...` URLs the pipeline receives. -/
def jsUrlParseable (s : String) : Bool :=
  (jsSplit s "://").length ≥ 2 && (jsSplit s "://").getD 0 "" != ""

/-- Sender normalization of part_005 line 206: senders containing
`https://` are reduced to `protocol//host`. -/
def normalizeSender (sender : String) : String :=
  if jsIncludes sender "https://" then jsUrlProtocol sender ++ "//" ++ jsUrlHost sender
  else sender

/-- The source type classification of part_005 line 204. -/
def sourceTypeOf (msg : FactSourceMessageT) : String :=
  if msg.isBasedOnAdditionalType = "Central Exchange Data" then "CEX API" else "DEX LP"

/-- The exact cache match of part_005 line 209: same recipient, same
network. -/
def recipientMatches (netId : String) (msg : FactSourceMessageT) (cached : SourceT) : Bool :=
  cached.recipient == msg.recipient && cached.network == netId

/-- The rotated-recipient cache match of part_005 line 215: same name,
type, sender and network but a different recipient. -/
def rotatedSourceMatches (netId sourceName sourceType sender : String)
    (msg : FactSourceMessageT) (cached : SourceT) : Bool :=
  cached.name == sourceName && cached.type == sourceType && cached.sender == sender &&
    cached.network == netId && cached.recipient != msg.recipient

/-- One iteration of the `for (const [name, source] of archiveSources)`
loop of `getSourceDetailsFromArchive` (part_005 lines 203 to 271),
projected to the store calls it issues. -/
def processArchiveSource (netId sourceName : String) (msg : FactSourceMessageT)
    (sourcesCache : List SourceT) : Option (List ArchiveOp) :=
  if jsUrlParseable msg.sender then
    let sourceType := sourceTypeOf msg
    let sender := normalizeSender msg.sender
    match sourcesCache.find? (recipientMatches netId msg) with
    | some _ => some []
    | none =>
      match sourcesCache.find? (rotatedSourceMatches netId sourceName sourceType sender msg) with
      | some existingSource =>
        some [ArchiveOp.updateSourceStatus existingSource.id "inactive",
          ArchiveOp.createSource
            { network := netId
              name := sourceName
              type := sourceType
              sender := sender
              recipient := msg.recipient
              status := "active"
              website := existingSource.website
              image_path := existingSource.image_path
              background_color := existingSource.background_color }]
      | none =>
        some [ArchiveOp.createSource
          { network := netId
            name := sourceName
            type := sourceType
            sender := sender
            recipient := msg.recipient
            status := "active"
            website := ""
            image_path := ""
            background_color := "" }]
  else none

/-- C9: when no cached source of the network has the new recipient but
one matches on name, type and sender with a different recipient, that
source is set inactive and a new active source is created with the new
recipient, carrying forward the website, image path and background
color. -/
theorem archive_source_rotation (netId sourceName : String) (msg : FactSourceMessageT)
    (sourcesCache : List SourceT) (existingSource : SourceT)
    (hurl : jsUrlParseable msg.sender = true)
    (hnone : sourcesCache.find? (recipientMatches netId msg) = none)
    (hfound : sourcesCache.find?
        (rotatedSourceMatches netId sourceName (sourceTypeOf msg)
          (normalizeSender msg.sender) msg) = some existingSource) :
    processArchiveSource netId sourceName msg sourcesCache =
      some [ArchiveOp.updateSourceStatus existingSource.id "inactive",
        ArchiveOp.createSource
          { network := netId
            name := sourceName
            type := sourceTypeOf msg
            sender := normalizeSender msg.sender
            recipient := msg.recipient
            status := "active"
            website := existingSource.website
            image_path := existingSource.image_path
            background_color := existingSource.background_color }] := by
  simp only [processArchiveSource, hurl, if_true, hnone, hfound]

/-- The cached kraken source of the S6 scenario. -/
def c9Existing : SourceT :=
  { id := "src_r1"
    network := "net_main"
    name := "kraken"
    type := "CEX API"
    sender := "https://api.kraken.com"
    recipient := "R1"
    status := "active"
    website := "https://kraken.com"
    image_path := "/img/kraken.png"
    background_color := "#5741d9" }

/-- The S6 archive message: kraken data with a new recipient R2. -/
def c9Msg : FactSourceMessageT :=
  { isBasedOnAdditionalType := "Central Exchange Data"
    sender := "https://api.kraken.com/whatever"
    recipient := "R2" }

/-- Witness for C9: the rotation theorem on the S6 scenario: R1 is
deactivated and the new R2 source inherits the presentation fields. -/
theorem archive_source_rotation_witness :
    jsUrlParseable c9Msg.sender = true ∧
      [c9Existing].find? (recipientMatches "net_main" c9Msg) = none ∧
      [c9Existing].find?
          (rotatedSourceMatches "net_main" "kraken" (sourceTypeOf c9Msg)
            (normalizeSender c9Msg.sender) c9Msg) = some c9Existing ∧
      processArchiveSource "net_main" "kraken" c9Msg [c9Existing] =
        some [ArchiveOp.updateSourceStatus c9Existing.id "inactive",
          ArchiveOp.createSource
            { network := "net_main"
              name := "kraken"
              type := sourceTypeOf c9Msg
              sender := normalizeSender c9Msg.sender
              recipient := c9Msg.recipient
              status := "active"
              website := c9Existing.website
              image_path := c9Existing.image_path
              background_color := c9Existing.background_color }] :=
  ⟨by decide, by decide, by decide,
    archive_source_rotation "net_main" "kraken" c9Msg [c9Existing] c9Existing
      (by decide) (by decide) (by decide)⟩
